import Mathlib

/-!
Verification of the poodle-go SDK against its specification.

Strings are modelled as lists of characters (`Str`); Go's `len` on a string
counts bytes, but every code path below that compares a length against a
bound either (a) operates on a string that has already passed the ASCII-only
email regex, where bytes = characters, or (b) measures raw content whose
length we quantify over directly, so the character-list model is faithful.

The Go standard library (`strings`, `strconv`, `net/http` header lookup,
`encoding/json`) is an external collaborator of the repository; its
operations used by the source are modelled here as Lean functions with
the documented Go semantics.  JSON decoding of response bodies is modelled
as an already-decoded value: `Option ApiResponse` is the outcome of
`json.Unmarshal` into the `{success, message, error}` struct shape that
every handler in http.go uses (`none` = unmarshal error).
-/

set_option maxRecDepth 4000

abbrev Str := List Char

/-- Coerce a Lean string literal to the character-list model. -/
def s2l (s : String) : Str := s.data

/-! ### Go `strings` package model -/

/-- Go `strings.HasPrefix p s` (argument order: pattern first here). -/
def strPre : Str → Str → Bool
  | [], _ => true
  | _ :: _, [] => false
  | p :: ps, c :: cs => p = c && strPre ps cs

/-- Go `strings.HasSuffix`: `p` is a suffix of `s`. -/
def strSuf (p s : Str) : Bool := strPre p.reverse s.reverse

/-- Go `strings.Contains s sub`. -/
def strContains : Str → Str → Bool
  | [], sub => sub.isEmpty
  | c :: cs, sub => strPre sub (c :: cs) || strContains cs sub

/-- Go `unicode.IsSpace`: the full Unicode White_Space set, stated on
code points (U+0009-U+000D, space, NEL, NBSP, U+1680, U+2000-U+200A,
U+2028, U+2029, U+202F, U+205F, U+3000). -/
def goIsSpace (c : Char) : Bool :=
  9 ≤ c.toNat && c.toNat ≤ 13 || c.toNat = 32 ||
  c.toNat = 0x85 || c.toNat = 0xA0 || c.toNat = 0x1680 ||
  (0x2000 ≤ c.toNat && c.toNat ≤ 0x200A) ||
  c.toNat = 0x2028 || c.toNat = 0x2029 || c.toNat = 0x202F ||
  c.toNat = 0x205F || c.toNat = 0x3000

/-- Go `strings.TrimSpace`. -/
def goTrimSpace (s : Str) : Str :=
  ((s.dropWhile goIsSpace).reverse.dropWhile goIsSpace).reverse

/-- Go `strings.TrimRight s "/"`. -/
def goTrimRightSlash (s : Str) : Str :=
  (s.reverse.dropWhile (· = '/')).reverse

/-- Go `strings.ToLower` restricted to ASCII case folding
(header names in the claims are ASCII). -/
def lowerStr (s : Str) : Str := s.map Char.toLower

/-- Go `strings.Split s (String sep)` for a one-character separator. -/
def splitCh (sep : Char) : Str → List Str
  | [] => [[]]
  | c :: cs =>
    match splitCh sep cs with
    | [] => [[]]
    | p :: ps => if c = sep then [] :: p :: ps else (c :: p) :: ps

/-- Inverse of `splitCh`: join parts with the separator. -/
def joinSep (sep : Char) : List Str → Str
  | [] => []
  | [p] => p
  | p :: q :: ps => p ++ sep :: joinSep sep (q :: ps)

/-! ### Go `strconv` model -/

/-- Decimal digit value. -/
def digVal (c : Char) : Option Nat :=
  if '0' ≤ c ∧ c ≤ '9' then some (c.toNat - '0'.toNat) else none

def digitsValAux : Nat → Str → Option Nat
  | acc, [] => some acc
  | acc, c :: cs =>
    match digVal c with
    | some d => digitsValAux (acc * 10 + d) cs
    | none => none

/-- Value of a non-empty all-digit string. -/
def digitsVal : Str → Option Nat
  | [] => none
  | l => digitsValAux 0 l

def int64Max : Int := 9223372036854775807
def int64Min : Int := -9223372036854775808

/-- Go `strconv.Atoi` / `strconv.ParseInt(s, 10, 64)`: optional sign,
one or more decimal digits, value within the signed 64-bit range;
`none` models a non-nil error. -/
def goAtoi (s : Str) : Option Int :=
  match s with
  | '+' :: r => (digitsVal r).bind fun n =>
      if (n : Int) ≤ int64Max then some (n : Int) else none
  | '-' :: r => (digitsVal r).bind fun n =>
      if int64Min ≤ -(n : Int) then some (-(n : Int)) else none
  | r => (digitsVal r).bind fun n =>
      if (n : Int) ≤ int64Max then some (n : Int) else none

/-! ### email.go : model and validation -/

/-- email.go lines 9-15: the Email struct. -/
structure Email where
  From : Str
  To : Str
  Subject : Str
  HTML : Str := []
  Text : Str := []
  deriving DecidableEq, Repr

/-- email.go line 19: `MaxContentSize = 10 * 1024 * 1024`. -/
def MaxContentSize : Nat := 10 * 1024 * 1024

/-- `[a-zA-Z]`, stated on code points. -/
def isAlphaCh (c : Char) : Bool :=
  (65 ≤ c.toNat && c.toNat ≤ 90) || (97 ≤ c.toNat && c.toNat ≤ 122)

/-- `[0-9]`, stated on code points. -/
def isDigitCh (c : Char) : Bool := 48 ≤ c.toNat && c.toNat ≤ 57

/-- Character class `[a-zA-Z0-9._%+-]` (local part of `emailRegex`);
the punctuation is named by code point (46 `.`, 95 `_`, 37 `%`, 43 `+`, 45 `-`). -/
def classA (c : Char) : Bool :=
  isAlphaCh c || isDigitCh c || c.toNat = 46 || c.toNat = 95 ||
  c.toNat = 37 || c.toNat = 43 || c.toNat = 45

/-- Character class `[a-zA-Z0-9-]` (non-dot domain characters; 45 is `-`). -/
def classBc (c : Char) : Bool := isAlphaCh c || isDigitCh c || c.toNat = 45

/-- Full match of the domain part of `emailRegex`, i.e. of
`[a-zA-Z0-9.-]+\.[a-zA-Z]{2,}` anchored on both sides.
A matching decomposition `b ++ "." ++ t` with `t` all-alphabetic must
split at the LAST dot (an earlier dot would put a dot inside `t`),
so the match is decided at the last dot: the final dot-separated label
is the `[a-zA-Z]{2,}` part and everything before the last dot is the
`[a-zA-Z0-9.-]+` part (non-empty; its non-dot characters in `[a-zA-Z0-9-]`). -/
def domainRegex (d : Str) : Bool :=
  match (splitCh '.' d).reverse with
  | tld :: r :: rs =>
    decide (2 ≤ tld.length) && tld.all isAlphaCh &&
    !(decide (r = []) && decide (rs = [])) &&
    (r :: rs).all (fun lab => lab.all classBc)
  | _ => false

/-- email.go line 23: full match of
`^[a-zA-Z0-9._%+-]+@[a-zA-Z0-9.-]+\.[a-zA-Z]{2,}$`.
Neither character class contains `@`, so a matching string has exactly
one `@`; the match is decided on the two parts around it. -/
def emailRegexMatch (s : Str) : Bool :=
  match splitCh '@' s with
  | [l, d] => !l.isEmpty && l.all classA && domainRegex d
  | _ => false

/-- email.go lines 137-174: `isValidEmail`. -/
def isValidEmail (email : Str) : Bool :=
  let e := goTrimSpace email
  if e.length = 0 ∨ 254 < e.length then false
  else if emailRegexMatch e = false then false
  else
    match splitCh '@' e with
    | [localPart, domainPart] =>
      if strPre ['.'] localPart || strSuf ['.'] localPart ||
         strContains localPart ['.', '.'] then false
      else if strPre ['-'] domainPart || strSuf ['-'] domainPart ||
              strPre ['.'] domainPart || strSuf ['.'] domainPart ||
              strContains domainPart ['.', '.'] then false
      else
        let domainLabels := splitCh '.' domainPart
        if domainLabels.length < 2 then false
        else domainLabels.all fun lab =>
          !(strPre ['-'] lab || strSuf ['-'] lab || lab.isEmpty)
    | _ => false

/-! ### errors.go : the error taxonomy -/

/-- Render an integer in decimal (Go `fmt` `%d` verb). -/
def intToStr (n : Int) : Str := (toString n).data

/-- A value stored in an error's context map
(Go `map[string]interface{}`, restricted to the value shapes errors.go stores). -/
inductive CtxVal where
  | str (v : Str)
  | int (v : Int)
  | errs (v : List (Str × List Str))
  deriving DecidableEq, Repr

/-- errors.go lines 16-20: the `BaseError` struct. -/
structure BaseError where
  Message : Str
  Code : Nat
  ContextMap : List (Str × CtxVal)
  deriving DecidableEq, Repr

/-- errors.go lines 37-41. -/
structure ValidationError where
  base : BaseError
  Errors : List (Str × List Str)
  deriving DecidableEq, Repr

/-- errors.go lines 43-55: `NewValidationError` (Code = 400). -/
def NewValidationError (message : Str) (errors : List (Str × List Str)) :
    ValidationError :=
  { base := { Message := message, Code := 400,
              ContextMap := [(s2l "error_type", .str (s2l "validation_error")),
                             (s2l "errors", .errs errors)] },
    Errors := errors }

/-- errors.go lines 64-67. -/
structure AuthenticationError where
  base : BaseError
  deriving DecidableEq, Repr

/-- errors.go lines 69-82: `NewAuthenticationError` (Code = 401). -/
def NewAuthenticationError (message : Str) : AuthenticationError :=
  let message := if message = [] then s2l "Invalid or missing API key" else message
  { base := { Message := message, Code := 401,
              ContextMap := [(s2l "error_type", .str (s2l "authentication_error"))] } }

/-- errors.go lines 84-88. -/
structure AccountSuspendedError where
  base : BaseError
  Reason : Str
  deriving DecidableEq, Repr

/-- errors.go lines 90-105: `NewAccountSuspendedError` (Code = 403). -/
def NewAccountSuspendedError (message reason : Str) : AccountSuspendedError :=
  let message := if message = [] then s2l "Account suspended" else message
  { base := { Message := message, Code := 403,
              ContextMap := [(s2l "error_type", .str (s2l "account_suspended")),
                             (s2l "reason", .str reason)] },
    Reason := reason }

/-- errors.go lines 107-111. -/
structure SubscriptionError where
  base : BaseError
  ErrorType : Str
  deriving DecidableEq, Repr

/-- errors.go lines 113-128: `NewSubscriptionError` (Code = 402). -/
def NewSubscriptionError (message errorType : Str) : SubscriptionError :=
  let message := if message = [] then s2l "Subscription error" else message
  { base := { Message := message, Code := 402,
              ContextMap := [(s2l "error_type", .str (s2l "subscription_error")),
                             (s2l "subscription_type", .str errorType)] },
    ErrorType := errorType }

/-- Message synthesized by `fmt.Sprintf("Rate limit exceeded. Retry after %d seconds.", n)`. -/
def rateLimitMsg (n : Int) : Str :=
  s2l "Rate limit exceeded. Retry after " ++ intToStr n ++ s2l " seconds."

/-- errors.go lines 130-137. -/
structure RateLimitError where
  base : BaseError
  RetryAfter : Int
  Limit : Int
  Remaining : Int
  Reset : Int
  deriving DecidableEq, Repr

/-- errors.go lines 139-160: `NewRateLimitError` (Code = 429). -/
def NewRateLimitError (message : Str) (retryAfter limit remaining reset : Int) :
    RateLimitError :=
  let message := if message = [] then rateLimitMsg retryAfter else message
  { base := { Message := message, Code := 429,
              ContextMap := [(s2l "error_type", .str (s2l "rate_limit_exceeded")),
                             (s2l "retry_after", .int retryAfter),
                             (s2l "limit", .int limit),
                             (s2l "remaining", .int remaining),
                             (s2l "reset", .int reset)] },
    RetryAfter := retryAfter, Limit := limit, Remaining := remaining,
    Reset := reset }

/-- errors.go lines 162-166. -/
structure NetworkError where
  base : BaseError
  URL : Str
  deriving DecidableEq, Repr

/-- errors.go lines 168-183: `NewNetworkError`
(Code = 0, "No specific HTTP status for network errors"). -/
def NewNetworkError (message url : Str) : NetworkError :=
  let message := if message = [] then s2l "Network error occurred" else message
  { base := { Message := message, Code := 0,
              ContextMap := [(s2l "error_type", .str (s2l "network_error")),
                             (s2l "url", .str url)] },
    URL := url }

/-- errors.go lines 185-199: `NewConnectionTimeoutError`
(a `NetworkError` whose Code is `http.StatusRequestTimeout` = 408). -/
def NewConnectionTimeoutError (timeout : Int) (url : Str) : NetworkError :=
  { base := { Message := s2l "Connection timeout after " ++ intToStr timeout ++
                         s2l " seconds",
              Code := 408,
              ContextMap := [(s2l "error_type", .str (s2l "connection_timeout")),
                             (s2l "timeout", .int timeout),
                             (s2l "url", .str url)] },
    URL := url }

/-- errors.go lines 201-206. -/
structure HTTPError where
  base : BaseError
  URL : Str
  ResponseBody : Str
  deriving DecidableEq, Repr

/-- errors.go lines 208-225: `NewHTTPError` (Code = the HTTP status). -/
def NewHTTPError (statusCode : Nat) (message url responseBody : Str) : HTTPError :=
  let message := if message = [] then
      s2l "HTTP " ++ intToStr statusCode ++ s2l " error" else message
  { base := { Message := message, Code := statusCode,
              ContextMap := [(s2l "error_type", .str (s2l "http_error")),
                             (s2l "url", .str url),
                             (s2l "response_body", .str responseBody)] },
    URL := url, ResponseBody := responseBody }

/-- The `PoodleError` interface: one of the concrete error types. -/
inductive PoodleErr where
  | validation (e : ValidationError)
  | authentication (e : AuthenticationError)
  | accountSuspended (e : AccountSuspendedError)
  | subscription (e : SubscriptionError)
  | rateLimit (e : RateLimitError)
  | network (e : NetworkError)
  | http (e : HTTPError)
  deriving DecidableEq, Repr

/-- `StatusCode()` of the underlying `BaseError`. -/
def PoodleErr.statusCode : PoodleErr → Nat
  | .validation e => e.base.Code
  | .authentication e => e.base.Code
  | .accountSuspended e => e.base.Code
  | .subscription e => e.base.Code
  | .rateLimit e => e.base.Code
  | .network e => e.base.Code
  | .http e => e.base.Code

/-! ### response.go and email.go `Validate` -/

/-- response.go lines 97-101: the `EmailResponse` struct. -/
structure EmailResponse where
  Success : Bool
  Message : Str
  Error : Str := []
  deriving DecidableEq, Repr

/-- The `{success, message, error}` struct shape every response handler in
http.go unmarshals into; a decoded response body.  Absent JSON fields decode
to Go zero values (`false` / `""`). -/
structure ApiResponse where
  success : Bool := false
  message : Str := []
  error : Str := []
  deriving DecidableEq, Repr

/-- email.go lines 66-99: the `errors` map built by `Validate`, linearized
in program order as an association list (each of the six keys is assigned
at most once, so the list is a faithful rendering of the Go map). -/
def validationErrors (e : Email) : List (Str × List Str) :=
  (if goTrimSpace e.From = [] then
     [(s2l "from", [s2l "From address is required"])]
   else if isValidEmail e.From = false then
     [(s2l "from", [s2l "From address is not a valid email"])]
   else []) ++
  (if goTrimSpace e.To = [] then
     [(s2l "to", [s2l "To address is required"])]
   else if isValidEmail e.To = false then
     [(s2l "to", [s2l "To address is not a valid email"])]
   else []) ++
  (if goTrimSpace e.Subject = [] then
     [(s2l "subject", [s2l "Subject is required"])]
   else []) ++
  (if goTrimSpace e.HTML = [] ∧ goTrimSpace e.Text = [] then
     [(s2l "content", [s2l "At least one content type (html or text) is required"])]
   else []) ++
  (if MaxContentSize < e.HTML.length then
     [(s2l "html", [s2l "HTML content exceeds maximum size limit"])]
   else []) ++
  (if MaxContentSize < e.Text.length then
     [(s2l "text", [s2l "Text content exceeds maximum size limit"])]
   else [])

/-- email.go lines 66-105: `Validate` — `some` a `ValidationError` when the
errors map is non-empty, `none` otherwise. -/
def Email.Validate (e : Email) : Option ValidationError :=
  let errors := validationErrors e
  if 0 < errors.length then
    some (NewValidationError (s2l "Email validation failed") errors)
  else none

/-! ### http.go : transport client and response classifier -/

/-- The configuration fields http.go reads.  config.go is not part of the
sources provided; the fields are modelled from the spec (§6): `apiKey`,
`baseURL`, total `timeout` (held here in whole seconds, as
`int(config.Timeout.Seconds())` reads it) and the `User-Agent` string
produced by `GetUserAgent()`. -/
structure Config where
  APIKey : Str
  BaseURL : Str
  TimeoutSeconds : Int
  UserAgent : Str
  deriving DecidableEq, Repr

/-- An outbound HTTP request as http.go builds it. -/
structure Request where
  method : Str
  url : Str
  headers : List (Str × Str)
  body : Str
  deriving DecidableEq, Repr

/-- A received response body: its raw text plus the outcome of JSON
decoding into the `{success, message, error}` shape (`none` = decode error). -/
structure RespBody where
  decode : Option ApiResponse
  raw : Str
  deriving DecidableEq, Repr

/-- What `httpClient.Do` + `io.ReadAll` produce, as seen by `SendEmail`:
`doError errText` models `Do` returning a non-nil error whose `Error()`
text is `errText`; `readError` models `io.ReadAll` failing after a
response arrived; `response` carries status, headers and body. -/
inductive TransportResult where
  | doError (errText : Str)
  | readError (status : Nat) (headers : List (Str × Str))
  | response (status : Nat) (headers : List (Str × Str)) (body : RespBody)
  deriving DecidableEq, Repr

/-- `resp.Header.Get(key)`: net/textproto canonicalizes both stored and
looked-up keys, so the lookup is case-insensitive; first match wins,
missing key yields `""`. -/
def headerGet (hs : List (Str × Str)) (key : Str) : Str :=
  match hs.find? (fun p => lowerStr p.fst = lowerStr key) with
  | some p => p.snd
  | none => []

/-- http.go lines 143-150: `parseSuccessResponse`. -/
def parseSuccessResponse (d : Option ApiResponse) : Except PoodleErr EmailResponse :=
  match d with
  | none => .error (.network (NewNetworkError (s2l "Failed to parse response") []))
  | some r => .ok { Success := r.success, Message := r.message, Error := r.error }

/-- http.go lines 152-176: `parseValidationError`. -/
def parseValidationError (d : Option ApiResponse) : ValidationError :=
  match d with
  | none => NewValidationError (s2l "Validation failed")
      [(s2l "request", [s2l "Invalid request format"])]
  | some r =>
    let errors := [(s2l "request", [r.message])] ++
      (if r.error ≠ [] then [(s2l "details", [r.error])] else [])
    NewValidationError r.message errors

/-- http.go lines 178-189: `parseAuthenticationError`. -/
def parseAuthenticationError (d : Option ApiResponse) : AuthenticationError :=
  match d with
  | none => NewAuthenticationError (s2l "Invalid or missing API key")
  | some r => NewAuthenticationError r.message

/-- http.go lines 191-214: `parseSubscriptionError` — the error type is
chosen by substring search on the message, "expired" before "trial"
before "limit". -/
def parseSubscriptionError (d : Option ApiResponse) : SubscriptionError :=
  match d with
  | none => NewSubscriptionError (s2l "Subscription error") (s2l "unknown")
  | some r =>
    let errorType :=
      if strContains r.message (s2l "expired") then s2l "subscription_expired"
      else if strContains r.message (s2l "trial") then s2l "trial_limit_reached"
      else if strContains r.message (s2l "limit") then s2l "limit_reached"
      else s2l "unknown"
    NewSubscriptionError r.message errorType

/-- http.go lines 216-228: `parseAccountSuspendedError`. -/
def parseAccountSuspendedError (d : Option ApiResponse) : AccountSuspendedError :=
  match d with
  | none => NewAccountSuspendedError (s2l "Account suspended") (s2l "unknown")
  | some r => NewAccountSuspendedError r.message r.error

/-- http.go lines 230-275: `parseRateLimitError` — the body decode error is
ignored (`apiResponse` keeps its zero value), each header is read with a
default of 0 when absent or when `strconv` fails, and an empty message is
replaced by the synthesized rate-limit text. -/
def parseRateLimitError (headers : List (Str × Str)) (d : Option ApiResponse) :
    RateLimitError :=
  let apiResponse := d.getD {}
  let retryAfter :=
    if headerGet headers (s2l "retry-after") = [] then 0
    else match goAtoi (headerGet headers (s2l "retry-after")) with
      | some v => v
      | none => 0
  let limit :=
    if headerGet headers (s2l "ratelimit-limit") = [] then 0
    else match goAtoi (headerGet headers (s2l "ratelimit-limit")) with
      | some v => v
      | none => 0
  let remaining :=
    if headerGet headers (s2l "ratelimit-remaining") = [] then 0
    else match goAtoi (headerGet headers (s2l "ratelimit-remaining")) with
      | some v => v
      | none => 0
  let reset :=
    if headerGet headers (s2l "ratelimit-reset") = [] then 0
    else match goAtoi (headerGet headers (s2l "ratelimit-reset")) with
      | some v => v
      | none => 0
  let message :=
    if apiResponse.message = [] then rateLimitMsg retryAfter
    else apiResponse.message
  NewRateLimitError message retryAfter limit remaining reset

/-- http.go lines 277-290: `parseGenericError`. -/
def parseGenericError (statusCode : Nat) (body : RespBody) (url : Str) : HTTPError :=
  let message :=
    match body.decode with
    | some r => if r.message ≠ [] then r.message
                else s2l "HTTP " ++ intToStr statusCode ++ s2l " error"
    | none => s2l "HTTP " ++ intToStr statusCode ++ s2l " error"
  NewHTTPError statusCode message url body.raw

/-- http.go lines 114-140: the status-code switch of `SendEmail`
(the Response Classifier of spec §4.3). -/
def classify (status : Nat) (headers : List (Str × Str)) (body : RespBody)
    (url : Str) : Except PoodleErr EmailResponse :=
  if status = 202 then parseSuccessResponse body.decode
  else if status = 400 then .error (.validation (parseValidationError body.decode))
  else if status = 401 then .error (.authentication (parseAuthenticationError body.decode))
  else if status = 402 then .error (.subscription (parseSubscriptionError body.decode))
  else if status = 403 then .error (.accountSuspended (parseAccountSuspendedError body.decode))
  else if status = 422 then .error (.validation (parseValidationError body.decode))
  else if status = 429 then .error (.rateLimit (parseRateLimitError headers body.decode))
  else .error (.http (parseGenericError status body url))

/-- http.go line 71: the request URL. -/
def requestUrl (cfg : Config) : Str :=
  goTrimRightSlash cfg.BaseURL ++ s2l "/v1/send-email"

/-- http.go lines 74-83: the request `SendEmail` builds (method, URL,
headers, serialized body).  `marshal` stands for `json.Marshal`, which
cannot fail on the all-string `Email` struct; `http.NewRequest` cannot fail
for method POST and a well-formed URL (the configuration is validated at
client construction). -/
def mkRequest (cfg : Config) (marshal : Email → Str) (email : Email) : Request :=
  { method := s2l "POST",
    url := requestUrl cfg,
    headers := [(s2l "Content-Type", s2l "application/json"),
                (s2l "Accept", s2l "application/json"),
                (s2l "Authorization", s2l "Bearer " ++ cfg.APIKey),
                (s2l "User-Agent", cfg.UserAgent)],
    body := marshal email }

/-- http.go lines 57-141: `SendEmail`.  The HTTP round trip is the external
collaborator `transport`; the returned list records the requests actually
issued, so "no network call" is `[]` and "exactly one POST" is a
one-element list. -/
def SendEmail (cfg : Config) (marshal : Email → Str)
    (transport : Request → TransportResult) (email : Email) :
    Except PoodleErr EmailResponse × List Request :=
  match email.Validate with
  | some ve => (.error (.validation ve), [])
  | none =>
    let req := mkRequest cfg marshal email
    let url := requestUrl cfg
    match transport req with
    | .doError errText =>
      if strContains errText (s2l "timeout") then
        (.error (.network (NewConnectionTimeoutError cfg.TimeoutSeconds url)), [req])
      else
        (.error (.network (NewNetworkError (s2l "Request failed: " ++ errText) url)), [req])
    | .readError _ _ =>
      (.error (.network (NewNetworkError (s2l "Failed to read response body") url)), [req])
    | .response status headers body =>
      (classify status headers body url, [req])

deriving instance DecidableEq for Except

/-! ### spec §4.1 : the violation classes listed by the spec -/

/-- The "additional rejects" of spec §4.1, stated as the spec words them:
local part starting/ending with `.` or containing `..`; domain
starting/ending with `-` or `.` or containing `..`; fewer than 2
dot-separated domain labels; any domain label starting/ending with `-`
or empty. -/
def specViolation (l d : Str) : Bool :=
  strPre ['.'] l || strSuf ['.'] l || strContains l ['.', '.'] ||
  strPre ['-'] d || strSuf ['-'] d || strPre ['.'] d || strSuf ['.'] d ||
  strContains d ['.', '.'] ||
  decide ((splitCh '.' d).length < 2) ||
  (splitCh '.' d).any (fun lab => strPre ['-'] lab || strSuf ['-'] lab || lab.isEmpty)

/-- No listed violation class fires (on the parts around the `@`). -/
def specNoViol (s : Str) : Bool :=
  match splitCh '@' s with
  | [l, d] => !specViolation l d
  | _ => true

/-! ### helper lemmas about the string model -/

theorem splitCh_ne_nil (sep : Char) (l : Str) : splitCh sep l ≠ [] := by
  cases l with
  | nil => simp [splitCh]
  | cons c cs =>
    unfold splitCh
    cases splitCh sep cs with
    | nil => simp
    | cons p ps =>
      dsimp only
      split <;> simp

theorem joinSep_cons_head (sep c : Char) (p : Str) (ps : List Str) :
    joinSep sep ((c :: p) :: ps) = c :: joinSep sep (p :: ps) := by
  cases ps <;> rfl

theorem joinSep_splitCh (sep : Char) (l : Str) :
    joinSep sep (splitCh sep l) = l := by
  induction l with
  | nil => rfl
  | cons c cs ih =>
    unfold splitCh
    cases h : splitCh sep cs with
    | nil => exact absurd h (splitCh_ne_nil sep cs)
    | cons p ps =>
      rw [h] at ih
      dsimp only
      by_cases hc : c = sep
      · rw [if_pos hc, hc]
        show ([] : Str) ++ sep :: joinSep sep (p :: ps) = sep :: cs
        rw [List.nil_append, ih]
      · rw [if_neg hc, joinSep_cons_head, ih]

theorem mem_joinSep {c sep : Char} {parts : List Str}
    (h : c ∈ joinSep sep parts) : c = sep ∨ ∃ p ∈ parts, c ∈ p := by
  induction parts with
  | nil => simp [joinSep] at h
  | cons p ps ih =>
    cases ps with
    | nil => exact Or.inr ⟨p, by simp, h⟩
    | cons q qs =>
      rw [show joinSep sep (p :: q :: qs) = p ++ sep :: joinSep sep (q :: qs) from rfl] at h
      rcases List.mem_append.mp h with h1 | h2
      · exact Or.inr ⟨p, by simp, h1⟩
      · rcases List.mem_cons.mp h2 with h3 | h4
        · exact Or.inl h3
        · rcases ih h4 with h5 | ⟨r, hr, hcr⟩
          · exact Or.inl h5
          · exact Or.inr ⟨r, by simp [hr], hcr⟩

theorem mem_via_splitCh (sep : Char) {c : Char} {l : Str} (h : c ∈ l) :
    c = sep ∨ ∃ p ∈ splitCh sep l, c ∈ p := by
  rw [← joinSep_splitCh sep l] at h
  exact mem_joinSep h

theorem dropWhile_eq_self_of (p : Char → Bool) (l : Str)
    (h : ∀ c ∈ l, p c = false) : l.dropWhile p = l := by
  cases l with
  | nil => rfl
  | cons a t =>
    rw [List.dropWhile_cons, h a (List.mem_cons_self a t)]
    simp

theorem goTrimSpace_eq_self {l : Str} (h : ∀ c ∈ l, goIsSpace c = false) :
    goTrimSpace l = l := by
  unfold goTrimSpace
  rw [dropWhile_eq_self_of _ _ h,
      dropWhile_eq_self_of _ _ (fun c hc => h c (List.mem_reverse.mp hc))]
  exact List.reverse_reverse l

theorem goIsSpace_bounds {c : Char} (h : goIsSpace c = true) :
    c.toNat ≤ 32 ∨ 133 ≤ c.toNat := by
  simp only [goIsSpace, Bool.or_eq_true, Bool.and_eq_true, decide_eq_true_eq] at h
  omega

theorem nonspace_of_classA {c : Char} (h : classA c = true) : goIsSpace c = false := by
  simp only [classA, isAlphaCh, isDigitCh, Bool.or_eq_true, Bool.and_eq_true,
    decide_eq_true_eq] at h
  cases hs : goIsSpace c with
  | false => rfl
  | true => rcases goIsSpace_bounds hs with h1 | h1 <;> omega

theorem nonspace_of_classBc {c : Char} (h : classBc c = true) : goIsSpace c = false := by
  simp only [classBc, isAlphaCh, isDigitCh, Bool.or_eq_true, Bool.and_eq_true,
    decide_eq_true_eq] at h
  cases hs : goIsSpace c with
  | false => rfl
  | true => rcases goIsSpace_bounds hs with h1 | h1 <;> omega

theorem nonspace_of_isAlphaCh {c : Char} (h : isAlphaCh c = true) : goIsSpace c = false := by
  simp only [isAlphaCh, Bool.or_eq_true, Bool.and_eq_true, decide_eq_true_eq] at h
  cases hs : goIsSpace c with
  | false => rfl
  | true => rcases goIsSpace_bounds hs with h1 | h1 <;> omega

theorem isValidEmail_of_grammar (s : Str) (hlen : s.length ≤ 254)
    (hre : emailRegexMatch s = true) (hnv : specNoViol s = true) :
    isValidEmail s = true := by
  have hre' := hre
  cases hsp : splitCh '@' s with
  | nil => unfold emailRegexMatch at hre; rw [hsp] at hre; simp at hre
  | cons l t1 =>
    cases t1 with
    | nil => unfold emailRegexMatch at hre; rw [hsp] at hre; simp at hre
    | cons d t2 =>
      cases t2 with
      | cons x xs => unfold emailRegexMatch at hre; rw [hsp] at hre; simp at hre
      | nil =>
        unfold emailRegexMatch at hre
        rw [hsp] at hre
        dsimp only at hre
        simp only [Bool.and_eq_true] at hre
        obtain ⟨⟨hlne, hlA⟩, hdom⟩ := hre
        cases hrev : (splitCh '.' d).reverse with
        | nil => unfold domainRegex at hdom; rw [hrev] at hdom; simp at hdom
        | cons tld t3 =>
          cases t3 with
          | nil => unfold domainRegex at hdom; rw [hrev] at hdom; simp at hdom
          | cons r rs =>
            unfold domainRegex at hdom
            rw [hrev] at hdom
            dsimp only at hdom
            simp only [Bool.and_eq_true, decide_eq_true_eq] at hdom
            obtain ⟨⟨⟨htldlen, htldA⟩, _hbne⟩, hlabs⟩ := hdom
            have hs_eq : l ++ '@' :: d = s := by
              have hj := joinSep_splitCh '@' s
              rw [hsp] at hj
              exact hj
            have hchars : ∀ c ∈ s, goIsSpace c = false := by
              intro c hc
              rw [← hs_eq] at hc
              rcases List.mem_append.mp hc with hcl | hcr
              · exact nonspace_of_classA (List.all_eq_true.mp hlA c hcl)
              · rcases List.mem_cons.mp hcr with rfl | hcd
                · decide
                · rcases mem_via_splitCh '.' hcd with rfl | ⟨p, hp, hcp⟩
                  · decide
                  · have hp' : p ∈ (splitCh '.' d).reverse := List.mem_reverse.mpr hp
                    rw [hrev] at hp'
                    rcases List.mem_cons.mp hp' with rfl | hp2
                    · exact nonspace_of_isAlphaCh (List.all_eq_true.mp htldA c hcp)
                    · exact nonspace_of_classBc
                        (List.all_eq_true.mp (List.all_eq_true.mp hlabs p hp2) c hcp)
            have htrim : goTrimSpace s = s := goTrimSpace_eq_self hchars
            have hsne : s ≠ [] := by
              rw [← hs_eq]; simp
            have hv : specViolation l d = false := by
              unfold specNoViol at hnv
              rw [hsp] at hnv
              dsimp only at hnv
              simpa using hnv
            unfold specViolation at hv
            simp only [Bool.or_eq_false_iff] at hv
            obtain ⟨⟨⟨⟨⟨⟨⟨⟨⟨v1, v2⟩, v3⟩, v4⟩, v5⟩, v6⟩, v7⟩, v8⟩, v9⟩, v10⟩ := hv
            unfold isValidEmail
            rw [htrim]
            rw [if_neg (by
              push_neg
              refine ⟨fun h0 => hsne (List.length_eq_zero.mp h0), ?_⟩
              omega)]
            rw [if_neg (by simp [hre'])]
            rw [hsp]
            dsimp only
            rw [if_neg (by simp [v1, v2, v3])]
            rw [if_neg (by simp [v4, v5, v6, v7, v8])]
            rw [if_neg (by simpa using v9)]
            simp only [List.all_eq_true]
            intro lab hlab
            have := (List.any_eq_false.mp v10) lab hlab
            simp only [this]
            rfl

theorem goTrimSpace_replicate_space (n : Nat) :
    goTrimSpace (List.replicate n ' ') = [] := by
  have hdrop : ∀ m : Nat, (List.replicate m ' ').dropWhile goIsSpace = [] := by
    intro m
    induction m with
    | zero => rfl
    | succ k ih =>
      rw [List.replicate_succ, List.dropWhile_cons]
      simp only [show goIsSpace ' ' = true from by decide, if_true]
      exact ih
  unfold goTrimSpace
  rw [hdrop n]
  rfl

theorem goTrimSpace_replicate_of_nonspace (n : Nat) (c : Char)
    (h : goIsSpace c = false) :
    goTrimSpace (List.replicate n c) = List.replicate n c :=
  goTrimSpace_eq_self fun x hx => by
    rw [List.eq_of_mem_replicate hx]; exact h

/-! ### Claim theorems -/

/-- C1: for a 202 status the classifier parses the body as a
`{success, message, error?}` structure and returns it as a SuccessResult
verbatim (success is not forced to true); if parsing fails it produces a
NetworkError with message "Failed to parse response"; and classifying 202
with body `{"success":true,"message":"Email queued"}` yields a
SuccessResult whose message equals "Email queued". -/
theorem C1_success_classification :
    (parseSuccessResponse none =
      .error (.network (NewNetworkError (s2l "Failed to parse response") []))) ∧
    (∀ r : ApiResponse, parseSuccessResponse (some r) =
      .ok { Success := r.success, Message := r.message, Error := r.error }) ∧
    (∀ headers url raw d, classify 202 headers { decode := d, raw := raw } url =
      parseSuccessResponse d) ∧
    (∀ headers url raw,
      classify 202 headers
          { decode := some { success := true, message := s2l "Email queued" },
            raw := raw } url =
        .ok { Success := true, Message := s2l "Email queued", Error := [] }) ∧
    ({ Success := true, Message := s2l "Email queued", Error := [] :
        EmailResponse }.Message = s2l "Email queued") :=
  ⟨rfl, fun _ => rfl, fun _ _ _ _ => rfl, fun _ _ _ => rfl, rfl⟩

/-- C3: for a 402 status the classifier determines the SubscriptionError's
errorType by substring search on the parsed message with precedence
"expired" → subscription_expired, else "trial" → trial_limit_reached,
else "limit" → limit_reached, else unknown; a body parse failure yields
SubscriptionError("Subscription error", "unknown"). -/
theorem C3_subscription_classification :
    (parseSubscriptionError none =
      NewSubscriptionError (s2l "Subscription error") (s2l "unknown")) ∧
    ((parseSubscriptionError none).base.Message = s2l "Subscription error" ∧
      (parseSubscriptionError none).ErrorType = s2l "unknown") ∧
    (∀ r : ApiResponse, strContains r.message (s2l "expired") = true →
      (parseSubscriptionError (some r)).ErrorType = s2l "subscription_expired") ∧
    (∀ r : ApiResponse, strContains r.message (s2l "expired") = false →
      strContains r.message (s2l "trial") = true →
      (parseSubscriptionError (some r)).ErrorType = s2l "trial_limit_reached") ∧
    (∀ r : ApiResponse, strContains r.message (s2l "expired") = false →
      strContains r.message (s2l "trial") = false →
      strContains r.message (s2l "limit") = true →
      (parseSubscriptionError (some r)).ErrorType = s2l "limit_reached") ∧
    (∀ r : ApiResponse, strContains r.message (s2l "expired") = false →
      strContains r.message (s2l "trial") = false →
      strContains r.message (s2l "limit") = false →
      (parseSubscriptionError (some r)).ErrorType = s2l "unknown") ∧
    (∀ headers url raw d, classify 402 headers { decode := d, raw := raw } url =
      .error (.subscription (parseSubscriptionError d))) ∧
    ((parseSubscriptionError
        (some { message := s2l "Your trial limit is reached" })).ErrorType =
      s2l "trial_limit_reached") := by
  refine ⟨rfl, ⟨rfl, rfl⟩, ?_, ?_, ?_, ?_, fun _ _ _ _ => rfl, by decide⟩
  · intro r h
    simp only [parseSubscriptionError, h]
    rfl
  · intro r h1 h2
    simp only [parseSubscriptionError, h1, h2]
    rfl
  · intro r h1 h2 h3
    simp only [parseSubscriptionError, h1, h2, h3]
    rfl
  · intro r h1 h2 h3
    simp only [parseSubscriptionError, h1, h2, h3]
    rfl

/-- The 429 headers of the claim's concrete example (capitalized on the
wire, looked up lower-case). -/
def hdrsC4 : List (Str × Str) :=
  [(s2l "Retry-After", s2l "60"), (s2l "Ratelimit-Limit", s2l "100"),
   (s2l "Ratelimit-Remaining", s2l "0"), (s2l "Ratelimit-Reset", s2l "1678886400")]

/-- C4: for a 429 status the classifier reads retry-after, ratelimit-limit,
ratelimit-remaining and ratelimit-reset case-insensitively, each defaulting
to 0 when absent or non-numeric; body parse errors are ignored; an empty
parsed message is synthesized as "Rate limit exceeded. Retry after
{retryAfter} seconds."; and the claim's concrete 429 example yields
retryAfter=60, limit=100, remaining=0, reset=1678886400. -/
theorem C4_rate_limit :
    (∀ url raw,
      classify 429 hdrsC4
          { decode := some { message := s2l "Rate limit exceeded" }, raw := raw } url =
        .error (.rateLimit
          (NewRateLimitError (s2l "Rate limit exceeded") 60 100 0 1678886400))) ∧
    ((NewRateLimitError (s2l "Rate limit exceeded") 60 100 0 1678886400).RetryAfter = 60 ∧
     (NewRateLimitError (s2l "Rate limit exceeded") 60 100 0 1678886400).Limit = 100 ∧
     (NewRateLimitError (s2l "Rate limit exceeded") 60 100 0 1678886400).Remaining = 0 ∧
     (NewRateLimitError (s2l "Rate limit exceeded") 60 100 0 1678886400).Reset = 1678886400) ∧
    (∀ h d, goAtoi (headerGet h (s2l "retry-after")) = none →
      (parseRateLimitError h d).RetryAfter = 0) ∧
    (∀ h d, goAtoi (headerGet h (s2l "ratelimit-limit")) = none →
      (parseRateLimitError h d).Limit = 0) ∧
    (∀ h d, goAtoi (headerGet h (s2l "ratelimit-remaining")) = none →
      (parseRateLimitError h d).Remaining = 0) ∧
    (∀ h d, goAtoi (headerGet h (s2l "ratelimit-reset")) = none →
      (parseRateLimitError h d).Reset = 0) ∧
    (∀ h, parseRateLimitError h none = parseRateLimitError h (some {})) ∧
    (∀ h d, (d.getD {}).message = [] →
      (parseRateLimitError h d).base.Message =
        rateLimitMsg (parseRateLimitError h d).RetryAfter) := by
  refine ⟨fun _ _ => rfl, by decide, ?_, ?_, ?_, ?_, fun h => rfl, ?_⟩
  · intro h d hnone
    unfold parseRateLimitError NewRateLimitError
    dsimp only
    rw [hnone]
    split <;> rfl
  · intro h d hnone
    unfold parseRateLimitError NewRateLimitError
    dsimp only
    rw [hnone]
    split <;> rfl
  · intro h d hnone
    unfold parseRateLimitError NewRateLimitError
    dsimp only
    rw [hnone]
    split <;> rfl
  · intro h d hnone
    unfold parseRateLimitError NewRateLimitError
    dsimp only
    rw [hnone]
    split <;> rfl
  · intro h d hmsg
    unfold parseRateLimitError NewRateLimitError rateLimitMsg
    dsimp only
    rw [hmsg]
    simp

/-- Witness for C4: the default branch at a concrete header list with a
non-numeric retry-after value. -/
theorem C4_rate_limit_witness :
    (parseRateLimitError [(s2l "Retry-After", s2l "soon")] none).RetryAfter = 0 :=
  C4_rate_limit.2.2.1 [(s2l "Retry-After", s2l "soon")] none (by decide)

/-- A message violating every rule at once: `From` non-blank but invalid,
`To` non-blank but invalid, blank `Subject`, `HTML` and `Text` both
blank-after-trimming yet oversized (10 MiB + 1 spaces). -/
def allBadEmail : Email :=
  { From := s2l "bad", To := s2l "bad2", Subject := [],
    HTML := List.replicate (MaxContentSize + 1) ' ',
    Text := List.replicate (MaxContentSize + 1) ' ' }

/-- `isValidEmail` accepts no string that is blank after trimming. -/
theorem trim_ne_nil_of_isValidEmail {s : Str} (h : isValidEmail s = true) :
    goTrimSpace s ≠ [] := by
  intro hnil
  unfold isValidEmail at h
  rw [hnil] at h
  simp at h

/-- C2: `Validate` accumulates every violated rule into an errors mapping
keyed among from, to, subject, content, html, text, each key carrying at
least one reason; it returns no error exactly when the mapping is empty; a
message missing `from` yields a ValidationError containing key "from"; a
fully valid message with both html and text populated returns none; and a
message violating all six rules collects all six keys (no short-circuit). -/
theorem C2_validate_accumulates :
    (∀ e : Email, goTrimSpace e.From = [] →
      ∃ ve, e.Validate = some ve ∧ s2l "from" ∈ ve.Errors.map Prod.fst) ∧
    (∀ e : Email, isValidEmail e.From = true → isValidEmail e.To = true →
      goTrimSpace e.Subject ≠ [] → goTrimSpace e.HTML ≠ [] →
      goTrimSpace e.Text ≠ [] → e.HTML.length ≤ MaxContentSize →
      e.Text.length ≤ MaxContentSize → e.Validate = none) ∧
    (∀ e : Email, e.Validate = none ↔ validationErrors e = []) ∧
    (∀ e : Email, ∀ kv ∈ validationErrors e,
      kv.1 ∈ [s2l "from", s2l "to", s2l "subject", s2l "content",
              s2l "html", s2l "text"] ∧ kv.2 ≠ []) ∧
    ((validationErrors allBadEmail).map Prod.fst =
      [s2l "from", s2l "to", s2l "subject", s2l "content",
       s2l "html", s2l "text"]) := by
  refine ⟨?_, ?_, ?_, ?_, ?_⟩
  · intro e h
    refine ⟨NewValidationError (s2l "Email validation failed") (validationErrors e), ?_, ?_⟩
    · unfold Email.Validate
      rw [if_pos]
      unfold validationErrors
      rw [if_pos h]
      simp
    · unfold validationErrors
      rw [if_pos h]
      simp [NewValidationError]
  · intro e h1 h2 h3 h4 h5 h6 h7
    have e1 : validationErrors e = [] := by
      unfold validationErrors
      rw [if_neg (trim_ne_nil_of_isValidEmail h1), if_neg (by simp [h1]),
          if_neg (trim_ne_nil_of_isValidEmail h2), if_neg (by simp [h2]),
          if_neg h3, if_neg (by simp [h4]), if_neg (by omega), if_neg (by omega)]
      rfl
    unfold Email.Validate
    rw [e1]
    rfl
  · intro e
    unfold Email.Validate
    constructor
    · intro h
      by_contra hne
      have : 0 < (validationErrors e).length := List.length_pos.mpr hne
      rw [if_pos this] at h
      exact Option.noConfusion h
    · intro h
      rw [h]
      rfl
  · intro e kv hkv
    unfold validationErrors at hkv
    simp only [List.mem_append] at hkv
    rcases hkv with ((((h | h) | h) | h) | h) | h
    · split at h
      · simp only [List.mem_singleton] at h; subst h; decide
      · split at h
        · simp only [List.mem_singleton] at h; subst h; decide
        · simp at h
    · split at h
      · simp only [List.mem_singleton] at h; subst h; decide
      · split at h
        · simp only [List.mem_singleton] at h; subst h; decide
        · simp at h
    · split at h
      · simp only [List.mem_singleton] at h; subst h; decide
      · simp at h
    · split at h
      · simp only [List.mem_singleton] at h; subst h; decide
      · simp at h
    · split at h
      · simp only [List.mem_singleton] at h; subst h; decide
      · simp at h
    · split at h
      · simp only [List.mem_singleton] at h; subst h; decide
      · simp at h
  · have hH : goTrimSpace allBadEmail.HTML = [] := goTrimSpace_replicate_space _
    have hT : goTrimSpace allBadEmail.Text = [] := goTrimSpace_replicate_space _
    have hlenH : MaxContentSize < allBadEmail.HTML.length := by
      show MaxContentSize < (List.replicate (MaxContentSize + 1) ' ').length
      rw [List.length_replicate]
      omega
    have hlenT : MaxContentSize < allBadEmail.Text.length := by
      show MaxContentSize < (List.replicate (MaxContentSize + 1) ' ').length
      rw [List.length_replicate]
      omega
    unfold validationErrors
    rw [if_neg (by decide), if_pos (by decide), if_neg (by decide),
        if_pos (by decide), if_pos (by decide), if_pos ⟨hH, hT⟩,
        if_pos hlenH, if_pos hlenT]
    rfl

/-- Witness for C2: the fully valid message of the claim evaluates to none,
and the missing-from case at a concrete message contains key "from". -/
theorem C2_validate_accumulates_witness :
    ({ From := s2l "a@bc.de", To := s2l "d@ef.gh", Subject := s2l "s",
       HTML := s2l "h", Text := s2l "t" : Email }).Validate = none :=
  C2_validate_accumulates.2.1 _ (by decide) (by decide) (by decide) (by decide)
    (by decide) (by decide) (by decide)

/-- A message whose html is exactly `10*1024*1024 + 1` bytes of filler and
is otherwise valid. -/
def bigHtmlEmail : Email :=
  { From := s2l "a@bc.de", To := s2l "d@ef.gh", Subject := s2l "s",
    HTML := List.replicate (MaxContentSize + 1) 'a', Text := s2l "t" }

/-- The same message with html exactly `10*1024*1024` bytes. -/
def boundHtmlEmail : Email :=
  { From := s2l "a@bc.de", To := s2l "d@ef.gh", Subject := s2l "s",
    HTML := List.replicate MaxContentSize 'a', Text := s2l "t" }

/-- C6: the per-field content size limit is boundary inclusive at 10 MiB:
html over the limit yields a ValidationError with key "html" (text with key
"text", independently), html at the limit passes the size rule; concretely,
`10*1024*1024 + 1` filler bytes fail with key "html" alone and
`10*1024*1024` bytes validate cleanly. -/
theorem C6_content_size_boundary :
    (∀ e : Email, MaxContentSize < e.HTML.length →
      ∃ ve, e.Validate = some ve ∧ s2l "html" ∈ ve.Errors.map Prod.fst) ∧
    (∀ e : Email, e.HTML.length ≤ MaxContentSize →
      s2l "html" ∉ (validationErrors e).map Prod.fst) ∧
    (∀ e : Email, MaxContentSize < e.Text.length →
      ∃ ve, e.Validate = some ve ∧ s2l "text" ∈ ve.Errors.map Prod.fst) ∧
    (∀ e : Email, e.Text.length ≤ MaxContentSize →
      s2l "text" ∉ (validationErrors e).map Prod.fst) ∧
    (∃ ve, bigHtmlEmail.Validate = some ve ∧
      ve.Errors.map Prod.fst = [s2l "html"]) ∧
    (boundHtmlEmail.Validate = none) ∧
    (bigHtmlEmail.HTML.length = 10 * 1024 * 1024 + 1) ∧
    (boundHtmlEmail.HTML.length = 10 * 1024 * 1024) := by
  have hmemOf : ∀ e : Email, MaxContentSize < e.HTML.length →
      (s2l "html", [s2l "HTML content exceeds maximum size limit"]) ∈
        validationErrors e := by
    intro e h
    unfold validationErrors
    rw [if_pos h]
    simp [List.mem_append]
  have hmemOfT : ∀ e : Email, MaxContentSize < e.Text.length →
      (s2l "text", [s2l "Text content exceeds maximum size limit"]) ∈
        validationErrors e := by
    intro e h
    unfold validationErrors
    rw [if_pos h]
    simp [List.mem_append]
  have validateSome : ∀ (e : Email) (kv : Str × List Str),
      kv ∈ validationErrors e →
      ∃ ve, e.Validate = some ve ∧ kv.1 ∈ ve.Errors.map Prod.fst := by
    intro e kv hm
    refine ⟨NewValidationError (s2l "Email validation failed") (validationErrors e),
      ?_, ?_⟩
    · unfold Email.Validate
      rw [if_pos (List.length_pos.mpr (List.ne_nil_of_mem hm))]
    · exact List.mem_map_of_mem Prod.fst hm
  refine ⟨?_, ?_, ?_, ?_, ?_, ?_,
    by show (List.replicate (MaxContentSize + 1) 'a').length = 10 * 1024 * 1024 + 1
       rw [List.length_replicate]
       rfl,
    by show (List.replicate MaxContentSize 'a').length = 10 * 1024 * 1024
       rw [List.length_replicate]
       rfl⟩
  · intro e h
    exact validateSome e _ (hmemOf e h)
  · intro e h hmem
    simp only [List.mem_map] at hmem
    obtain ⟨kv, hkv, hfst⟩ := hmem
    unfold validationErrors at hkv
    simp only [List.mem_append] at hkv
    rcases hkv with ((((hb | hb) | hb) | hb) | hb) | hb
    · split at hb
      · simp only [List.mem_singleton] at hb; subst hb; exact absurd hfst (by decide)
      · split at hb
        · simp only [List.mem_singleton] at hb; subst hb; exact absurd hfst (by decide)
        · simp at hb
    · split at hb
      · simp only [List.mem_singleton] at hb; subst hb; exact absurd hfst (by decide)
      · split at hb
        · simp only [List.mem_singleton] at hb; subst hb; exact absurd hfst (by decide)
        · simp at hb
    · split at hb
      · simp only [List.mem_singleton] at hb; subst hb; exact absurd hfst (by decide)
      · simp at hb
    · split at hb
      · simp only [List.mem_singleton] at hb; subst hb; exact absurd hfst (by decide)
      · simp at hb
    · split at hb
      · next hc => exact absurd hc (by omega)
      · simp at hb
    · split at hb
      · simp only [List.mem_singleton] at hb; subst hb; exact absurd hfst (by decide)
      · simp at hb
  · intro e h
    exact validateSome e _ (hmemOfT e h)
  · intro e h hmem
    simp only [List.mem_map] at hmem
    obtain ⟨kv, hkv, hfst⟩ := hmem
    unfold validationErrors at hkv
    simp only [List.mem_append] at hkv
    rcases hkv with ((((hb | hb) | hb) | hb) | hb) | hb
    · split at hb
      · simp only [List.mem_singleton] at hb; subst hb; exact absurd hfst (by decide)
      · split at hb
        · simp only [List.mem_singleton] at hb; subst hb; exact absurd hfst (by decide)
        · simp at hb
    · split at hb
      · simp only [List.mem_singleton] at hb; subst hb; exact absurd hfst (by decide)
      · split at hb
        · simp only [List.mem_singleton] at hb; subst hb; exact absurd hfst (by decide)
        · simp at hb
    · split at hb
      · simp only [List.mem_singleton] at hb; subst hb; exact absurd hfst (by decide)
      · simp at hb
    · split at hb
      · simp only [List.mem_singleton] at hb; subst hb; exact absurd hfst (by decide)
      · simp at hb
    · split at hb
      · simp only [List.mem_singleton] at hb; subst hb; exact absurd hfst (by decide)
      · simp at hb
    · split at hb
      · next hc => exact absurd hc (by omega)
      · simp at hb
  · have herrs : validationErrors bigHtmlEmail =
        [(s2l "html", [s2l "HTML content exceeds maximum size limit"])] := by
      unfold validationErrors
      rw [if_neg (by decide), if_neg (by decide), if_neg (by decide),
          if_neg (by decide), if_neg (by decide),
          if_neg (fun hc => absurd hc.2 (by decide)),
          if_pos (show MaxContentSize < bigHtmlEmail.HTML.length by
            show MaxContentSize < (List.replicate (MaxContentSize + 1) 'a').length
            rw [List.length_replicate]
            omega),
          if_neg (show ¬MaxContentSize < bigHtmlEmail.Text.length by decide)]
      rfl
    refine ⟨NewValidationError (s2l "Email validation failed")
      (validationErrors bigHtmlEmail), ?_, ?_⟩
    · unfold Email.Validate
      rw [if_pos (by rw [herrs]; decide)]
    · rw [herrs]
      rfl
  · have herrs : validationErrors boundHtmlEmail = [] := by
      unfold validationErrors
      rw [if_neg (by decide), if_neg (by decide), if_neg (by decide),
          if_neg (by decide), if_neg (by decide),
          if_neg (fun hc => absurd hc.2 (by decide)),
          if_neg (show ¬MaxContentSize < boundHtmlEmail.HTML.length by
            show ¬MaxContentSize < (List.replicate MaxContentSize 'a').length
            rw [List.length_replicate]
            omega),
          if_neg (show ¬MaxContentSize < boundHtmlEmail.Text.length by decide)]
      rfl
    unfold Email.Validate
    rw [herrs]
    rfl

/-- A 256-byte address: 250 `a`s then `@ex.co`.  It matches the claim's
grammar and triggers none of the listed violation classes. -/
def longEmail : Str := List.replicate 250 'a' ++ s2l "@ex.co"

/-- C5 counterexample: `longEmail` matches the grammar, triggers none of
the listed additional rejects, yet `isValidEmail` returns false (the
length cut at 254 bytes, which the claim omits, rejects it). -/
theorem C5_counterexample :
    emailRegexMatch longEmail = true ∧ specNoViol longEmail = true ∧
    254 < longEmail.length ∧ isValidEmail longEmail = false := by decide

/-- C5 (amended): for inputs of at most 254 bytes, every string matching
the restricted grammar with none of the listed violation classes is
accepted; each listed violation class rejects its crafted example, with
`user+tag@example.com` accepted and `test..test@example.com` rejected. -/
theorem C5_email_grammar :
    (∀ s : Str, s.length ≤ 254 → emailRegexMatch s = true →
      specNoViol s = true → isValidEmail s = true) ∧
    isValidEmail (s2l "user+tag@example.com") = true ∧
    isValidEmail (s2l "test..test@example.com") = false ∧
    isValidEmail (s2l ".user@example.com") = false ∧
    isValidEmail (s2l "user.@example.com") = false ∧
    isValidEmail (s2l "user@-example.com") = false ∧
    isValidEmail (s2l "user@example-.com") = false ∧
    isValidEmail (s2l "user@.example.com") = false ∧
    isValidEmail (s2l "user@example..com") = false ∧
    isValidEmail (s2l "user@ex-.com") = false ∧
    isValidEmail (s2l "user@com") = false := by
  refine ⟨isValidEmail_of_grammar, ?_, ?_, ?_, ?_, ?_, ?_, ?_, ?_, ?_, ?_⟩ <;> decide

/-- Witness for C5: the amended universal statement applied to a concrete
address. -/
theorem C5_email_grammar_witness : isValidEmail (s2l "ok@go.dev") = true :=
  C5_email_grammar.1 (s2l "ok@go.dev") (by decide) (by decide) (by decide)

/-- A 256-byte input whose first 249 bytes are spaces; after trimming it
is the 7-byte valid address `a@bc.de`. -/
def paddedEmail : Str := List.replicate 249 ' ' ++ s2l "a@bc.de"

/-- C8 counterexample: an input longer than 254 bytes that `isValidEmail`
accepts, because the source trims whitespace before measuring length. -/
theorem C8_counterexample :
    254 < paddedEmail.length ∧ isValidEmail paddedEmail = true := by decide

/-- C8 (amended): every input whose TRIMMED form exceeds 254 bytes is
rejected, and inputs that are empty (or blank) after trimming are
rejected; in particular the empty string is rejected. -/
theorem C8_length_cut :
    (∀ s : Str, 254 < (goTrimSpace s).length → isValidEmail s = false) ∧
    (∀ s : Str, goTrimSpace s = [] → isValidEmail s = false) ∧
    isValidEmail [] = false := by
  refine ⟨?_, ?_, by decide⟩
  · intro s h
    unfold isValidEmail
    rw [if_pos (Or.inr h)]
  · intro s h
    unfold isValidEmail
    rw [if_pos (Or.inl (by rw [h]; rfl))]

/-- Witness for C8: the amended length cut applied to 255 untrimmable
bytes. -/
theorem C8_length_cut_witness :
    isValidEmail (List.replicate 255 'a') = false :=
  C8_length_cut.1 (List.replicate 255 'a') (by decide)

/-- C7: a message that fails structural validation is returned as that
ValidationError with the transport never consulted (no request issued);
when validation passes, exactly one POST to {baseURL}/v1/send-email is
issued with the four wire headers, and its status/headers/body are fed to
the classifier. -/
theorem C7_send_pipeline :
    (∀ cfg marshal transport (email : Email) ve, email.Validate = some ve →
      SendEmail cfg marshal transport email = (.error (.validation ve), [])) ∧
    (∀ cfg marshal transport (email : Email), email.Validate = none →
      (SendEmail cfg marshal transport email).2 = [mkRequest cfg marshal email]) ∧
    (∀ cfg marshal (email : Email),
      (mkRequest cfg marshal email).method = s2l "POST" ∧
      (mkRequest cfg marshal email).url = requestUrl cfg ∧
      (mkRequest cfg marshal email).body = marshal email ∧
      (mkRequest cfg marshal email).headers =
        [(s2l "Content-Type", s2l "application/json"),
         (s2l "Accept", s2l "application/json"),
         (s2l "Authorization", s2l "Bearer " ++ cfg.APIKey),
         (s2l "User-Agent", cfg.UserAgent)]) ∧
    (∀ cfg marshal transport (email : Email) status headers body,
      email.Validate = none →
      transport (mkRequest cfg marshal email) = .response status headers body →
      (SendEmail cfg marshal transport email).1 =
        classify status headers body (requestUrl cfg)) := by
  refine ⟨?_, ?_, fun cfg marshal email => ⟨rfl, rfl, rfl, rfl⟩, ?_⟩
  · intro cfg marshal transport email ve h
    unfold SendEmail
    rw [h]
  · intro cfg marshal transport email h
    unfold SendEmail
    rw [h]
    dsimp only
    cases htr : transport (mkRequest cfg marshal email) with
    | doError errText => dsimp only; split <;> rfl
    | readError status headers => rfl
    | response status headers body => rfl
  · intro cfg marshal transport email status headers body h htr
    unfold SendEmail
    rw [h]
    dsimp only
    rw [htr]

/-- Witness for C7: the no-network-call branch at a concrete invalid
message (missing from). -/
theorem C7_send_pipeline_witness :
    SendEmail
        { APIKey := s2l "k", BaseURL := s2l "https://api.usepoodle.com",
          TimeoutSeconds := 30, UserAgent := s2l "poodle-go/1.0.0" }
        (fun _ => []) (fun _ => .doError (s2l "unused"))
        { From := [], To := s2l "d@ef.gh", Subject := s2l "s", Text := s2l "t" } =
      (.error (.validation (NewValidationError (s2l "Email validation failed")
        [(s2l "from", [s2l "From address is required"])])), []) :=
  C7_send_pipeline.1 _ _ _ _ _ (by decide)

/-- The configuration and message of the C9 counterexample. -/
def cfgC9 : Config :=
  { APIKey := s2l "key", BaseURL := s2l "https://api.usepoodle.com",
    TimeoutSeconds := 30, UserAgent := s2l "poodle-go/1.0.0" }

def emailC9 : Email :=
  { From := s2l "a@bc.de", To := s2l "d@ef.gh", Subject := s2l "s",
    HTML := s2l "h", Text := s2l "t" }

/-- C9 counterexample: a transport failure whose error text contains
"timeout" produces the NetworkError variant tagged connection_timeout,
and its numeric status code is 408 (http.StatusRequestTimeout), not 0. -/
theorem C9_counterexample :
    (SendEmail cfgC9 (fun _ => []) (fun _ => .doError (s2l "timeout")) emailC9).1 =
      .error (.network (NewConnectionTimeoutError 30
        (s2l "https://api.usepoodle.com/v1/send-email"))) ∧
    (s2l "error_type", .str (s2l "connection_timeout")) ∈
      (NewConnectionTimeoutError 30
        (s2l "https://api.usepoodle.com/v1/send-email")).base.ContextMap ∧
    (NewConnectionTimeoutError 30
      (s2l "https://api.usepoodle.com/v1/send-email")).base.Code = 408 ∧
    (408 : Nat) ≠ 0 := by decide

/-- C9 (amended): transport-level failures classify as NetworkError with
numeric code 0 — except the connection_timeout variant (failure text
containing "timeout"), which carries code 408; read failures carry 0. -/
theorem C9_transport_failure_codes :
    (∀ m u, (NewNetworkError m u).base.Code = 0) ∧
    (∀ t u, (NewConnectionTimeoutError t u).base.Code = 408) ∧
    (∀ t u, (s2l "error_type", .str (s2l "connection_timeout")) ∈
      (NewConnectionTimeoutError t u).base.ContextMap) ∧
    (∀ cfg marshal transport (email : Email) errText, email.Validate = none →
      transport (mkRequest cfg marshal email) = .doError errText →
      ∃ ne, (SendEmail cfg marshal transport email).1 = .error (.network ne) ∧
        ne.base.Code =
          (if strContains errText (s2l "timeout") = true then 408 else 0)) ∧
    (∀ cfg marshal transport (email : Email) status headers,
      email.Validate = none →
      transport (mkRequest cfg marshal email) = .readError status headers →
      ∃ ne, (SendEmail cfg marshal transport email).1 = .error (.network ne) ∧
        ne.base.Code = 0) := by
  refine ⟨fun m u => rfl, fun t u => rfl, fun t u => List.mem_cons_self _ _, ?_, ?_⟩
  · intro cfg marshal transport email errText h htr
    unfold SendEmail
    rw [h]
    dsimp only
    rw [htr]
    dsimp only
    by_cases hti : strContains errText (s2l "timeout") = true
    · rw [if_pos hti, if_pos hti]
      exact ⟨_, rfl, rfl⟩
    · rw [if_neg hti, if_neg hti]
      exact ⟨_, rfl, rfl⟩
  · intro cfg marshal transport email status headers h htr
    unfold SendEmail
    rw [h]
    dsimp only
    rw [htr]
    exact ⟨_, rfl, rfl⟩

/-- Witness for C9's amended statement: a non-timeout failure text gives
code 0. -/
theorem C9_transport_failure_codes_witness :
    ∃ ne, (SendEmail cfgC9 (fun _ => [])
        (fun _ => .doError (s2l "connection refused")) emailC9).1 =
      .error (.network ne) ∧
      ne.base.Code =
        (if strContains (s2l "connection refused") (s2l "timeout") = true
         then 408 else 0) :=
  C9_transport_failure_codes.2.2.2.1 cfgC9 (fun _ => [])
    (fun _ => .doError (s2l "connection refused")) emailC9
    (s2l "connection refused") (by decide) rfl

/-- Every ValidationError built by `parseValidationError` carries code 400. -/
theorem parseValidationError_code (d : Option ApiResponse) :
    (parseValidationError d).base.Code = 400 := by
  cases d <;> rfl

/-- Every ValidationError returned by local validation carries code 400. -/
theorem validate_some_code {e : Email} {ve : ValidationError}
    (h : e.Validate = some ve) : ve.base.Code = 400 := by
  unfold Email.Validate at h
  dsimp only at h
  split at h
  · injection h with h'
    subst h'
    rfl
  · exact Option.noConfusion h

/-- Every ValidationError produced by the classifier carries code 400. -/
theorem classify_validation_code {status : Nat} {headers : List (Str × Str)}
    {body : RespBody} {url : Str} {ve : ValidationError}
    (h : classify status headers body url = .error (.validation ve)) :
    ve.base.Code = 400 := by
  unfold classify at h
  split_ifs at h
  · cases hd : body.decode <;>
      (unfold parseSuccessResponse at h; rw [hd] at h; simp at h)
  · simp only [Except.error.injEq, PoodleErr.validation.injEq] at h
    rw [← h]
    exact parseValidationError_code body.decode
  · simp at h
  · simp at h
  · simp at h
  · simp only [Except.error.injEq, PoodleErr.validation.injEq] at h
    rw [← h]
    exact parseValidationError_code body.decode
  · simp at h
  · simp at h

/-- C10: every ValidationError a send attempt can produce — from local
validation, from a 400 response, or from a 422 response — reports
StatusCode 400; in particular a 422 response never yields a
ValidationError carrying 422. -/
theorem C10_validation_code_400 :
    (∀ m errs, (NewValidationError m errs).base.Code = 400) ∧
    (∀ (e : Email) ve, e.Validate = some ve → ve.base.Code = 400) ∧
    (∀ headers d raw url, classify 400 headers { decode := d, raw := raw } url =
      .error (.validation (parseValidationError d))) ∧
    (∀ headers d raw url, classify 422 headers { decode := d, raw := raw } url =
      .error (.validation (parseValidationError d))) ∧
    (∀ d, (parseValidationError d).base.Code = 400) ∧
    (∀ cfg marshal transport (email : Email) ve,
      (SendEmail cfg marshal transport email).1 = .error (.validation ve) →
      ve.base.Code = 400) ∧
    (∀ d, (parseValidationError d).base.Code ≠ 422) := by
  refine ⟨fun m errs => rfl, fun e ve h => validate_some_code h,
    fun _ _ _ _ => rfl, fun _ _ _ _ => rfl, parseValidationError_code, ?_,
    fun d => by rw [parseValidationError_code]; decide⟩
  intro cfg marshal transport email ve h
  unfold SendEmail at h
  split at h
  · next ve' hval =>
    simp only [Except.error.injEq, PoodleErr.validation.injEq] at h
    rw [← h]
    exact validate_some_code hval
  · dsimp only at h
    split at h
    · split at h <;> simp at h
    · simp at h
    · exact classify_validation_code h

/-- Witness for C10: a locally invalid message's error carries 400. -/
theorem C10_validation_code_400_witness :
    (NewValidationError (s2l "Email validation failed")
      [(s2l "from", [s2l "From address is required"])]).base.Code = 400 :=
  C10_validation_code_400.2.1
    { From := [], To := s2l "d@ef.gh", Subject := s2l "s", Text := s2l "t" }
    (NewValidationError (s2l "Email validation failed")
      [(s2l "from", [s2l "From address is required"])]) (by decide)

/-- Witness for C3: the expired branch at a concrete message. -/
theorem C3_subscription_classification_witness :
    (parseSubscriptionError (some { message := s2l "plan expired" })).ErrorType =
      s2l "subscription_expired" :=
  C3_subscription_classification.2.2.1 { message := s2l "plan expired" } (by decide)
